import Mathlib

/-!
Shallow embedding of `src/core/memory.ts` (class `MemorySystem`) and proofs
about its operations.

Modelling conventions:
- Dynamically typed (`any`) configuration payloads are modelled by the
  inductive type `Value` of JavaScript runtime values; JS numbers are
  modelled as exact rationals.
- A JS `Map` is modelled as a function `String → Option _`; `Map.set`,
  `Map.delete` and `Map.clear` become pointwise updates.  No claim below
  observes map iteration order.
- `new Date()` is an external input: operations that read the clock take
  the current timestamp (already in its ISO-string form) as an explicit
  argument.
- `Object.keys` throws a `TypeError` on `null`/`undefined`, so key
  enumeration and everything built on it returns `Except String _`;
  on every other value it returns a duplicate-free list of keys
  (property names of an object, index strings of a string, nothing for
  primitives).
- `async` methods never await anything except each other, so they are
  modelled as pure state-passing functions.
-/

/-- JavaScript runtime values, used for the dynamically typed (`any`)
configuration payloads of the TypeScript source.  Numbers are modelled as
exact rationals. -/
inductive Value : Type where
  | vnull : Value
  | vundef : Value
  | vbool : Bool → Value
  | vnum : Rat → Value
  | vstr : String → Value
  | vobj : List (String × Value) → Value

/-- JavaScript truthiness: `null`, `undefined`, `false`, `0` and the empty
string are falsy; every object (and every other primitive) is truthy. -/
def truthy : Value → Bool
  | .vnull => false
  | .vundef => false
  | .vbool b => b
  | .vnum q => q != 0
  | .vstr s => s != ""
  | .vobj _ => true

/-- Semantics of the JavaScript expression `a || b`. -/
def jsOr (a b : Value) : Value := if truthy a then a else b

/-- A value is nullish when it is `null` or `undefined` (the values on
which `Object.keys` throws). -/
def nonNullish : Value → Bool
  | .vnull => false
  | .vundef => false
  | _ => true

/-- Remove duplicates keeping the first occurrence of each key, as a JS
object does with repeated property names; `seen` accumulates the keys kept
so far. -/
def dedupKeep (seen : List String) : List String → List String
  | [] => []
  | k :: rest =>
      if k ∈ seen then dedupKeep seen rest
      else k :: dedupKeep (k :: seen) rest

/-- Keys of a JS object: property names with duplicates removed, first
occurrence first. -/
def dedupFirst (l : List String) : List String := dedupKeep [] l

/-- Index keys of a JS string of length `n`: the strings `"0"`, …, `"n-1"`. -/
def natKeys (n : Nat) : List String := (List.range n).map (fun i => toString i)

/-- Message of the `TypeError` thrown by `Object.keys(null)` and
`Object.keys(undefined)`. -/
def typeErrorMsg : String := "TypeError: Cannot convert undefined or null to object"

/-- Semantics of `Object.keys`: throws on `null`/`undefined`; property
names for objects; index strings for strings; the empty list for the other
primitives. -/
def jsObjectKeys : Value → Except String (List String)
  | .vnull => .error typeErrorMsg
  | .vundef => .error typeErrorMsg
  | .vbool _ => .ok []
  | .vnum _ => .ok []
  | .vstr s => .ok (dedupFirst (natKeys s.length))
  | .vobj fields => .ok (dedupFirst (fields.map Prod.fst))

/-- Embeds `interface SuccessPattern` of the source; `timestamp` carries
the ISO string of the recording time. -/
structure SuccessPattern where
  type : String
  config : Value
  timestamp : String

/-- Embeds `interface FailurePattern` of the source. -/
structure FailurePattern where
  type : String
  config : Value
  error : String
  timestamp : String

/-- Embeds `interface Recommendation` of the source. -/
structure Recommendation where
  suggestion : String
  confidence : Rat
  based_on : List String

/-- State of `class MemorySystem`: the four private maps and the
`initialized` flag. -/
@[ext]
structure MemorySystem where
  storage : String → Option Value
  successPatterns : String → Option (List SuccessPattern)
  failurePatterns : String → Option (List FailurePattern)
  context : String → Option Value
  initialized : Bool

/-- Initial state of a freshly constructed `MemorySystem`: all maps empty. -/
def MemorySystem.init : MemorySystem where
  storage := fun _ => none
  successPatterns := fun _ => none
  failurePatterns := fun _ => none
  context := fun _ => none
  initialized := false

/-- Semantics of `Map.set`. -/
def mapSet {α : Type} (m : String → Option α) (key : String) (v : α) :
    String → Option α :=
  fun k => if k = key then some v else m k

/-- Semantics of `Map.delete`. -/
def mapDelete {α : Type} (m : String → Option α) (key : String) :
    String → Option α :=
  fun k => if k = key then none else m k

/-- Embeds `MemorySystem.store`. -/
def MemorySystem.store (m : MemorySystem) (key : String) (data : Value) :
    MemorySystem :=
  { m with storage := mapSet m.storage key data }

/-- Embeds `MemorySystem.retrieve`: `this.storage.get(key) || null`, where
`Map.get` yields `undefined` on a missing key. -/
def MemorySystem.retrieve (m : MemorySystem) (key : String) : Value :=
  jsOr ((m.storage key).getD Value.vundef) Value.vnull

/-- Embeds `MemorySystem.learnSuccess`; `now` is the current timestamp. -/
def MemorySystem.learnSuccess (m : MemorySystem) (type : String)
    (config : Value) (now : String) : MemorySystem :=
  let pattern : SuccessPattern := { type := type, config := config, timestamp := now }
  let existing := (m.successPatterns type).getD []
  { m with successPatterns := mapSet m.successPatterns type (existing ++ [pattern]) }

/-- Embeds `MemorySystem.learnFailure`; `now` is the current timestamp. -/
def MemorySystem.learnFailure (m : MemorySystem) (type : String)
    (config : Value) (error : String) (now : String) : MemorySystem :=
  let pattern : FailurePattern :=
    { type := type, config := config, error := error, timestamp := now }
  let existing := (m.failurePatterns type).getD []
  { m with failurePatterns := mapSet m.failurePatterns type (existing ++ [pattern]) }

/-- Embeds `MemorySystem.getSuccessPatterns`:
`this.successPatterns.get(type) || []` (a stored array is always truthy,
so the `|| []` fires exactly on a missing key). -/
def MemorySystem.getSuccessPatterns (m : MemorySystem) (type : String) :
    List SuccessPattern :=
  (m.successPatterns type).getD []

/-- Embeds `MemorySystem.getFailurePatterns`. -/
def MemorySystem.getFailurePatterns (m : MemorySystem) (type : String) :
    List FailurePattern :=
  (m.failurePatterns type).getD []

/-- Embeds `MemorySystem.calculateSimilarity`.  `0.5`-free: the thresholds
live in `getRecommendations`; this returns the similarity or propagates
the `TypeError` of `Object.keys`. -/
def calculateSimilarity (config1 config2 : Value) : Except String Rat := do
  let keys1 ← jsObjectKeys config1
  let keys2 ← jsObjectKeys config2
  let commonKeys := keys1.filter (fun key => key ∈ keys2)
  if keys1.length = 0 ∧ keys2.length = 0 then pure 1
  else if keys1.length = 0 ∨ keys2.length = 0 then pure 0
  else pure ((commonKeys.length : Rat) / ((max keys1.length keys2.length : Nat) : Rat))

/-- Loop body of `MemorySystem.getRecommendations`: walk the success
patterns in stored order, keep one `Recommendation` per pattern whose
similarity is at least `0.5`. -/
def recommendFor (type : String) (partialConfig : Value) :
    List SuccessPattern → Except String (List Recommendation)
  | [] => .ok []
  | pattern :: rest => do
      let similarity ← calculateSimilarity partialConfig pattern.config
      let tailRecs ← recommendFor type partialConfig rest
      if (1 : Rat) / 2 ≤ similarity then
        pure ({ suggestion := "Consider using configuration similar to successful " ++ type,
                confidence := similarity,
                based_on := ["Success pattern from " ++ pattern.timestamp] } :: tailRecs)
      else
        pure tailRecs

/-- Embeds `MemorySystem.getRecommendations`. -/
def MemorySystem.getRecommendations (m : MemorySystem) (type : String)
    (partialConfig : Value) : Except String (List Recommendation) :=
  recommendFor type partialConfig (m.getSuccessPatterns type)

/-- Embeds `MemorySystem.setContext`. -/
def MemorySystem.setContext (m : MemorySystem) (key : String) (value : Value) :
    MemorySystem :=
  { m with context := mapSet m.context key value }

/-- Embeds `MemorySystem.clearContext`: the source tests `if (key)`, so a
provided but empty key is falsy and falls into the clear-all branch. -/
def MemorySystem.clearContext (m : MemorySystem) (key : Option String) :
    MemorySystem :=
  match key with
  | some k =>
      if k ≠ "" then { m with context := mapDelete m.context k }
      else { m with context := fun _ => none }
  | none => { m with context := fun _ => none }

/-- Embeds `MemorySystem.storePattern` (delegates to `learnSuccess`). -/
def MemorySystem.storePattern (m : MemorySystem) (type : String)
    (pattern : Value) (now : String) : MemorySystem :=
  m.learnSuccess type pattern now

/-- Embeds `MemorySystem.retrievePattern`. -/
def MemorySystem.retrievePattern (m : MemorySystem) (type : String) : List Value :=
  (m.getSuccessPatterns type).map (fun p => p.config)

/-- Embeds `MemorySystem.storeLessons`. -/
def MemorySystem.storeLessons (m : MemorySystem) (type : String)
    (lessons : Value) : MemorySystem :=
  m.store ("lessons-" ++ type) lessons

/-! Helper lemmas about the key-enumeration functions. -/

theorem mem_dedupKeep (a : String) (l : List String) :
    ∀ seen, (a ∈ dedupKeep seen l ↔ a ∈ l ∧ a ∉ seen) := by
  induction l with
  | nil => intro seen; simp [dedupKeep]
  | cons k rest ih =>
      intro seen
      by_cases hk : k ∈ seen
      · simp only [dedupKeep, if_pos hk, ih, List.mem_cons]
        by_cases hak : a = k
        · subst hak; tauto
        · tauto
      · simp only [dedupKeep, if_neg hk, List.mem_cons, ih]
        by_cases hak : a = k
        · subst hak; tauto
        · tauto

theorem nodup_dedupKeep (l : List String) : ∀ seen, (dedupKeep seen l).Nodup := by
  induction l with
  | nil => intro seen; simp [dedupKeep]
  | cons k rest ih =>
      intro seen
      by_cases hk : k ∈ seen
      · simpa [dedupKeep, hk] using ih seen
      · simp only [dedupKeep, if_neg hk]
        refine List.nodup_cons.mpr ⟨?_, ih (k :: seen)⟩
        intro hmem
        exact ((mem_dedupKeep k rest (k :: seen)).mp hmem).2 (List.mem_cons_self k seen)

theorem nodup_dedupFirst (l : List String) : (dedupFirst l).Nodup :=
  nodup_dedupKeep l []

theorem jsObjectKeys_nodup {v : Value} {l : List String}
    (h : jsObjectKeys v = .ok l) : l.Nodup := by
  cases v with
  | vnull => exact absurd h (by simp [jsObjectKeys])
  | vundef => exact absurd h (by simp [jsObjectKeys])
  | vbool b => simp [jsObjectKeys] at h; exact h ▸ List.nodup_nil
  | vnum q => simp [jsObjectKeys] at h; exact h ▸ List.nodup_nil
  | vstr s => simp [jsObjectKeys] at h; exact h ▸ nodup_dedupFirst _
  | vobj fields => simp [jsObjectKeys] at h; exact h ▸ nodup_dedupFirst _

theorem jsObjectKeys_error {v : Value} {e : String}
    (h : jsObjectKeys v = .error e) : e = typeErrorMsg := by
  cases v <;> simp [jsObjectKeys] at h <;> exact h.symm

theorem jsObjectKeys_of_nonNullish {v : Value} (h : nonNullish v = true) :
    ∃ l, jsObjectKeys v = .ok l := by
  cases v <;> simp [nonNullish] at h <;> exact ⟨_, rfl⟩

theorem nonNullish_of_jsObjectKeys_ok {v : Value} {l : List String}
    (h : jsObjectKeys v = .ok l) : nonNullish v = true := by
  cases v <;> simp [jsObjectKeys] at h <;> rfl

/-! Reduction lemmas for the `Except` monad used by the `do` blocks. -/

theorem exceptBind_ok {ε α β : Type} (a : α) (f : α → Except ε β) :
    (Except.ok a >>= f) = f a := rfl

theorem exceptBind_error {ε α β : Type} (e : ε) (f : α → Except ε β) :
    ((Except.error e : Except ε α) >>= f) = Except.error e := rfl

theorem exceptPure {ε α : Type} (a : α) : (pure a : Except ε α) = Except.ok a := rfl

/-! The similarity computation, related to the set-based formula the spec
states. -/

/-- Similarity as the spec words it: the ratio of shared top-level keys to
the larger of the two key-set sizes, with the stated edge cases (both key
sets empty: 1; exactly one empty: 0).  This definition follows the spec
text; the theorems below compare it with `calculateSimilarity`, which
follows the source. -/
def similaritySpec (ka kb : Finset String) : Rat :=
  if ka = ∅ ∧ kb = ∅ then 1
  else if ka = ∅ ∨ kb = ∅ then 0
  else ((ka ∩ kb).card : Rat) / ((max ka.card kb.card : Nat) : Rat)

theorem length_filter_mem {l1 l2 : List String} (h1 : l1.Nodup) :
    (l1.filter (fun k => k ∈ l2)).length = (l1.toFinset ∩ l2.toFinset).card := by
  have hf : (l1.filter (fun k => k ∈ l2)).Nodup := h1.filter _
  have hset : (l1.filter (fun k => k ∈ l2)).toFinset = l1.toFinset ∩ l2.toFinset := by
    ext x
    simp [List.mem_filter, Finset.mem_inter]
  calc (l1.filter (fun k => k ∈ l2)).length
      = (l1.filter (fun k => k ∈ l2)).toFinset.card :=
        (List.toFinset_card_of_nodup hf).symm
    _ = (l1.toFinset ∩ l2.toFinset).card := by rw [hset]

theorem calculateSimilarity_ok {a b : Value} {ka kb : List String}
    (ha : jsObjectKeys a = .ok ka) (hb : jsObjectKeys b = .ok kb) :
    calculateSimilarity a b = .ok (similaritySpec ka.toFinset kb.toFinset) := by
  have hna := jsObjectKeys_nodup ha
  have hnb := jsObjectKeys_nodup hb
  unfold calculateSimilarity
  rw [ha, exceptBind_ok, hb, exceptBind_ok]
  by_cases hka : ka = [] <;> by_cases hkb : kb = []
  · subst hka; subst hkb
    simp [similaritySpec, exceptPure]
  · subst hka
    have h2 : kb.length ≠ 0 := by simpa [List.length_eq_zero] using hkb
    have h3 : kb.toFinset ≠ ∅ := by
      simpa [List.toFinset_eq_empty_iff] using hkb
    simp [similaritySpec, exceptPure, h2, h3]
  · subst hkb
    have h2 : ka.length ≠ 0 := by simpa [List.length_eq_zero] using hka
    have h3 : ka.toFinset ≠ ∅ := by
      simpa [List.toFinset_eq_empty_iff] using hka
    simp [similaritySpec, exceptPure, h2, h3]
  · have h2 : ka.length ≠ 0 := by simpa [List.length_eq_zero] using hka
    have h3 : kb.length ≠ 0 := by simpa [List.length_eq_zero] using hkb
    have h4 : ka.toFinset ≠ ∅ := by
      simpa [List.toFinset_eq_empty_iff] using hka
    have h5 : kb.toFinset ≠ ∅ := by
      simpa [List.toFinset_eq_empty_iff] using hkb
    simp only [similaritySpec, h2, h3, h4, h5, false_and, and_false, or_self,
      if_false, false_or, if_neg, not_false_iff]
    rw [length_filter_mem hna, List.toFinset_card_of_nodup hna,
      List.toFinset_card_of_nodup hnb]
    simp [exceptPure]

theorem similaritySpec_comm (ka kb : Finset String) :
    similaritySpec ka kb = similaritySpec kb ka := by
  unfold similaritySpec
  by_cases h1 : ka = ∅ <;> by_cases h2 : kb = ∅ <;>
    simp [h1, h2, Finset.inter_comm, max_comm]

theorem similaritySpec_nonneg (ka kb : Finset String) : 0 ≤ similaritySpec ka kb := by
  unfold similaritySpec
  split_ifs with h1 h2
  · norm_num
  · norm_num
  · positivity

theorem similaritySpec_le_one (ka kb : Finset String) : similaritySpec ka kb ≤ 1 := by
  unfold similaritySpec
  split_ifs with h1 h2
  · norm_num
  · norm_num
  · have hka : ka ≠ ∅ := fun h => h2 (Or.inl h)
    have hpos : (0 : Nat) < max ka.card kb.card :=
      lt_of_lt_of_le (Finset.card_pos.mpr (Finset.nonempty_iff_ne_empty.mpr hka))
        (le_max_left _ _)
    rw [div_le_one (by exact_mod_cast hpos)]
    have hcard : (ka ∩ kb).card ≤ max ka.card kb.card :=
      le_trans (Finset.card_le_card Finset.inter_subset_left) (le_max_left _ _)
    exact_mod_cast hcard

theorem calculateSimilarity_bounds {a b : Value} {q : Rat}
    (h : calculateSimilarity a b = .ok q) : 0 ≤ q ∧ q ≤ 1 := by
  cases ha : jsObjectKeys a with
  | error e =>
      have heq : calculateSimilarity a b = .error e := by
        unfold calculateSimilarity; rw [ha, exceptBind_error]
      rw [heq] at h
      exact absurd h (by simp)
  | ok ka =>
      cases hb : jsObjectKeys b with
      | error e =>
          have heq : calculateSimilarity a b = .error e := by
            unfold calculateSimilarity; rw [ha, exceptBind_ok, hb, exceptBind_error]
          rw [heq] at h
          exact absurd h (by simp)
      | ok kb =>
          rw [calculateSimilarity_ok ha hb] at h
          have hq : similaritySpec ka.toFinset kb.toFinset = q := by simpa using h
          rw [← hq]
          exact ⟨similaritySpec_nonneg _ _, similaritySpec_le_one _ _⟩

/-! Characterization of the recommendation loop. -/

/-- The `Recommendation` built for a qualifying success pattern. -/
def recOf (type : String) (q : Rat) (ts : String) : Recommendation :=
  { suggestion := "Consider using configuration similar to successful " ++ type,
    confidence := q,
    based_on := ["Success pattern from " ++ ts] }

theorem recommendFor_ok_of_defined (type : String) (c : Value) :
    ∀ ps : List SuccessPattern,
      (∀ p ∈ ps, ∃ q, calculateSimilarity c p.config = .ok q) →
      recommendFor type c ps = .ok (ps.filterMap (fun p =>
        (calculateSimilarity c p.config).toOption.bind (fun q =>
          if (1 : Rat) / 2 ≤ q then some (recOf type q p.timestamp) else none))) := by
  intro ps
  induction ps with
  | nil => intro _; rfl
  | cons p rest ih =>
      intro h
      obtain ⟨q, hq⟩ := h p (List.mem_cons_self p rest)
      have hrest := ih (fun x hx => h x (List.mem_cons_of_mem _ hx))
      simp only [recommendFor]
      rw [hq, exceptBind_ok, hrest, exceptBind_ok]
      by_cases hth : (1 : Rat) / 2 ≤ q
      · rw [if_pos hth, List.filterMap_cons]
        simp only [hq, Except.toOption, Option.some_bind]
        rw [if_pos hth]
        rfl
      · rw [if_neg hth, List.filterMap_cons]
        simp only [hq, Except.toOption, Option.some_bind]
        rw [if_neg hth]
        rfl

theorem recommendFor_confidence {type : String} {c : Value} :
    ∀ {ps : List SuccessPattern} {l : List Recommendation},
      recommendFor type c ps = .ok l → ∀ r ∈ l, 0 ≤ r.confidence ∧ r.confidence ≤ 1 := by
  intro ps
  induction ps with
  | nil =>
      intro l h r hr
      simp only [recommendFor] at h
      cases h
      exact absurd hr (List.not_mem_nil r)
  | cons p rest ih =>
      intro l h r hr
      cases hsim : calculateSimilarity c p.config with
      | error e =>
          simp only [recommendFor] at h
          rw [hsim, exceptBind_error] at h
          exact absurd h (by simp)
      | ok q =>
          cases hrest : recommendFor type c rest with
          | error e =>
              simp only [recommendFor] at h
              rw [hsim, exceptBind_ok, hrest, exceptBind_error] at h
              exact absurd h (by simp)
          | ok tl =>
              have hbnd := calculateSimilarity_bounds hsim
              simp only [recommendFor] at h
              rw [hsim, exceptBind_ok, hrest, exceptBind_ok] at h
              by_cases hth : (1 : Rat) / 2 ≤ q
              · rw [if_pos hth, exceptPure] at h
                cases h
                rcases List.mem_cons.mp hr with h1 | h1
                · subst h1; exact hbnd
                · exact ih hrest r h1
              · rw [if_neg hth, exceptPure] at h
                cases h
                exact ih hrest r hr

/-! Pointwise effect of the learning operations. -/

theorem getSuccessPatterns_learnSuccess (m : MemorySystem)
    (t t2 : String) (c : Value) (now : String) :
    (m.learnSuccess t c now).getSuccessPatterns t2 =
      if t2 = t then
        m.getSuccessPatterns t2 ++ [{ type := t, config := c, timestamp := now }]
      else m.getSuccessPatterns t2 := by
  by_cases h : t2 = t
  · subst h
    simp [MemorySystem.learnSuccess, MemorySystem.getSuccessPatterns, mapSet]
  · simp [MemorySystem.learnSuccess, MemorySystem.getSuccessPatterns, mapSet, h]

theorem getFailurePatterns_learnFailure (m : MemorySystem)
    (t t2 : String) (c : Value) (e now : String) :
    (m.learnFailure t c e now).getFailurePatterns t2 =
      if t2 = t then
        m.getFailurePatterns t2 ++
          [{ type := t, config := c, error := e, timestamp := now }]
      else m.getFailurePatterns t2 := by
  by_cases h : t2 = t
  · subst h
    simp [MemorySystem.learnFailure, MemorySystem.getFailurePatterns, mapSet]
  · simp [MemorySystem.learnFailure, MemorySystem.getFailurePatterns, mapSet, h]

/-! Replay of learning operations, used to express what "the full ordered
sequence of records of a type" means in terms of the calls that stored
them. -/

/-- One learning call: either `learnSuccess type config` or
`learnFailure type config error`, each tagged with the timestamp the call
observed. -/
inductive LearnOp : Type where
  | succ : String → Value → String → LearnOp
  | fail : String → Value → String → String → LearnOp

/-- Apply one learning call to the state. -/
def applyOp (m : MemorySystem) : LearnOp → MemorySystem
  | .succ t c now => m.learnSuccess t c now
  | .fail t c e now => m.learnFailure t c e now

/-- Apply a sequence of learning calls in order. -/
def replay (m : MemorySystem) (ops : List LearnOp) : MemorySystem :=
  ops.foldl applyOp m

/-- The success records of type `t` that a sequence of calls stores, in
call order. -/
def opsSucc (ops : List LearnOp) (t : String) : List SuccessPattern :=
  ops.filterMap (fun op => match op with
    | .succ t2 c now =>
        if t2 = t then some { type := t2, config := c, timestamp := now } else none
    | .fail _ _ _ _ => none)

/-- The failure records of type `t` that a sequence of calls stores, in
call order. -/
def opsFail (ops : List LearnOp) (t : String) : List FailurePattern :=
  ops.filterMap (fun op => match op with
    | .succ _ _ _ => none
    | .fail t2 c e now =>
        if t2 = t then some { type := t2, config := c, error := e, timestamp := now }
        else none)

theorem replay_getSuccessPatterns (t : String) :
    ∀ (ops : List LearnOp) (m : MemorySystem),
      (replay m ops).getSuccessPatterns t = m.getSuccessPatterns t ++ opsSucc ops t := by
  intro ops
  induction ops with
  | nil => intro m; simp [replay, opsSucc]
  | cons op rest ih =>
      intro m
      cases op with
      | succ t2 c now =>
          have hstep : replay m (.succ t2 c now :: rest) =
              replay (m.learnSuccess t2 c now) rest := rfl
          rw [hstep, ih, getSuccessPatterns_learnSuccess]
          by_cases h : t = t2
          · subst h
            simp [opsSucc, List.filterMap_cons]
          · have h2 : ¬(t2 = t) := fun hh => h hh.symm
            simp [opsSucc, List.filterMap_cons, h2, h]
      | fail t2 c e now =>
          have hstep : replay m (.fail t2 c e now :: rest) =
              replay (m.learnFailure t2 c e now) rest := rfl
          have hframe : (m.learnFailure t2 c e now).getSuccessPatterns t =
              m.getSuccessPatterns t := rfl
          rw [hstep, ih, hframe]
          simp [opsSucc, List.filterMap_cons]

theorem replay_getFailurePatterns (t : String) :
    ∀ (ops : List LearnOp) (m : MemorySystem),
      (replay m ops).getFailurePatterns t = m.getFailurePatterns t ++ opsFail ops t := by
  intro ops
  induction ops with
  | nil => intro m; simp [replay, opsFail]
  | cons op rest ih =>
      intro m
      cases op with
      | succ t2 c now =>
          have hstep : replay m (.succ t2 c now :: rest) =
              replay (m.learnSuccess t2 c now) rest := rfl
          have hframe : (m.learnSuccess t2 c now).getFailurePatterns t =
              m.getFailurePatterns t := rfl
          rw [hstep, ih, hframe]
          simp [opsFail, List.filterMap_cons]
      | fail t2 c e now =>
          have hstep : replay m (.fail t2 c e now :: rest) =
              replay (m.learnFailure t2 c e now) rest := rfl
          rw [hstep, ih, getFailurePatterns_learnFailure]
          by_cases h : t = t2
          · subst h
            simp [opsFail, List.filterMap_cons]
          · have h2 : ¬(t2 = t) := fun hh => h hh.symm
            simp [opsFail, List.filterMap_cons, h2, h]

/-! Sample data shared by several concrete instantiations below (the
scenario of the spec: one stored success pattern with keys `framework` and
`db`, and a candidate with the single key `framework`). -/

/-- Store holding one `"web"` success pattern with keys `framework`, `db`. -/
def sampleStore : MemorySystem :=
  MemorySystem.init.learnSuccess "web"
    (Value.vobj [("framework", Value.vstr "express"), ("db", Value.vstr "postgres")])
    "2024-01-01T00:00:00.000Z"

/-- The single record `sampleStore` holds. -/
def samplePattern : SuccessPattern :=
  { type := "web",
    config := Value.vobj [("framework", Value.vstr "express"), ("db", Value.vstr "postgres")],
    timestamp := "2024-01-01T00:00:00.000Z" }

/-- Candidate configuration with the single key `framework`. -/
def sampleCandidate : Value := Value.vobj [("framework", Value.vstr "express")]

/-! Claims. -/

/-- C1: whenever `Object.keys` succeeds on both configurations (yielding
key lists `ka`, `kb`), the similarity the engine computes equals the
number of shared top-level keys divided by the larger of the two key-set
sizes, with value 1 when both key sets are empty and 0 when exactly one is
empty — that is, it equals `similaritySpec` on the two key sets. -/
theorem similarity_matches_spec (a b : Value) (ka kb : List String)
    (ha : jsObjectKeys a = .ok ka) (hb : jsObjectKeys b = .ok kb) :
    calculateSimilarity a b = .ok (similaritySpec ka.toFinset kb.toFinset) :=
  calculateSimilarity_ok ha hb

/-- Witness for C1 at a one-key object against an empty object. -/
theorem similarity_matches_spec_witness :
    jsObjectKeys (Value.vobj [("x", Value.vnull)]) = .ok ["x"] ∧
    jsObjectKeys (Value.vobj []) = .ok ([] : List String) ∧
    calculateSimilarity (Value.vobj [("x", Value.vnull)]) (Value.vobj []) =
      .ok (similaritySpec (["x"] : List String).toFinset ([] : List String).toFinset) :=
  ⟨rfl, rfl, similarity_matches_spec _ _ _ _ rfl rfl⟩

/-- C2: whenever every stored success record of the requested type has a
defined similarity to the candidate, `getRecommendations` returns exactly
the stored records in append order, each record with similarity at least
`0.5` contributing one `Recommendation` whose confidence is that
similarity and whose `based_on` is the single provenance string built from
the record's timestamp, and records below the threshold contributing
nothing. -/
theorem getRecommendations_matches_spec (m : MemorySystem) (type : String) (c : Value)
    (h : ∀ p ∈ m.getSuccessPatterns type, ∃ q, calculateSimilarity c p.config = .ok q) :
    m.getRecommendations type c = .ok ((m.getSuccessPatterns type).filterMap (fun p =>
      (calculateSimilarity c p.config).toOption.bind (fun q =>
        if (1 : Rat) / 2 ≤ q then some (recOf type q p.timestamp) else none))) :=
  recommendFor_ok_of_defined type c _ h

/-- Witness for C2 on the spec's sample scenario. -/
theorem getRecommendations_matches_spec_witness :
    sampleStore.getRecommendations "web" sampleCandidate =
      .ok ((sampleStore.getSuccessPatterns "web").filterMap (fun p =>
        (calculateSimilarity sampleCandidate p.config).toOption.bind (fun q =>
          if (1 : Rat) / 2 ≤ q then some (recOf "web" q p.timestamp) else none))) :=
  getRecommendations_matches_spec sampleStore "web" sampleCandidate (by
    intro p hp
    have hps : sampleStore.getSuccessPatterns "web" = [samplePattern] := rfl
    rw [hps] at hp
    obtain rfl := List.mem_singleton.mp hp
    exact ⟨_, rfl⟩)

/-- C3: `learnSuccess type config` appends a record carrying `config` at
the end of that type's success sequence: the new sequence is the previous
one extended with exactly that record as its last element (so nothing is
merged, deduplicated or deleted). -/
theorem learnSuccess_appends_last (m : MemorySystem) (t : String) (c : Value)
    (now : String) :
    (m.learnSuccess t c now).getSuccessPatterns t =
      m.getSuccessPatterns t ++ [{ type := t, config := c, timestamp := now }] := by
  simpa using getSuccessPatterns_learnSuccess m t t c now

/-- C4 counterexample: the claim says `getRecommendations` never raises
for any candidate configuration value, but with one stored success pattern
of type `"web"` a `null` candidate makes it throw the `TypeError` of
`Object.keys(null)` instead of returning a sequence. -/
theorem getRecommendations_throws_on_null_candidate :
    (MemorySystem.init.learnSuccess "web" (Value.vobj [])
        "2024-01-01T00:00:00.000Z").getRecommendations "web" Value.vnull =
      .error typeErrorMsg := rfl

/-- C4 amended: `getRecommendations` returns normally with a (possibly
empty) sequence whenever the candidate and every stored config of the
requested type are not nullish, and with no stored patterns for the type
it returns the empty sequence for every candidate value (even a nullish
one). -/
theorem getRecommendations_total_amended (m : MemorySystem) (t : String) (c : Value) :
    (nonNullish c = true →
      (∀ p ∈ m.getSuccessPatterns t, nonNullish p.config = true) →
      ∃ l, m.getRecommendations t c = .ok l) ∧
    (m.getSuccessPatterns t = [] → m.getRecommendations t c = .ok []) := by
  constructor
  · intro hc hall
    refine ⟨_, recommendFor_ok_of_defined t c (m.getSuccessPatterns t) ?_⟩
    intro p hp
    obtain ⟨kc, hkc⟩ := jsObjectKeys_of_nonNullish hc
    obtain ⟨kp, hkp⟩ := jsObjectKeys_of_nonNullish (hall p hp)
    exact ⟨_, calculateSimilarity_ok hkc hkp⟩
  · intro hempty
    have hred : m.getRecommendations t c = recommendFor t c (m.getSuccessPatterns t) := rfl
    rw [hred, hempty]
    rfl

/-- Witness for C4 (amended) on the sample store and on an empty store
with a nullish candidate. -/
theorem getRecommendations_total_amended_witness :
    (∃ l, sampleStore.getRecommendations "web" sampleCandidate = .ok l) ∧
    MemorySystem.init.getRecommendations "web" Value.vnull = .ok [] :=
  ⟨(getRecommendations_total_amended sampleStore "web" sampleCandidate).1 rfl (by
      intro p hp
      have hps : sampleStore.getSuccessPatterns "web" = [samplePattern] := rfl
      rw [hps] at hp
      obtain rfl := List.mem_singleton.mp hp
      rfl),
   (getRecommendations_total_amended MemorySystem.init "web" Value.vnull).2 rfl⟩

/-- C5 counterexample: the claim says an explicitly provided key removes
at most that key's entry, but clearing with the explicitly provided key
`""` removes the unrelated entry `"a"`: the source's `if (key)` treats the
empty string like an omitted key and clears the whole scope. -/
theorem clearContext_empty_key_clears_all :
    ((MemorySystem.init.setContext "a" (Value.vnum 1)).clearContext
        (some "")).context "a" = none ∧
    (MemorySystem.init.setContext "a" (Value.vnum 1)).context "a" =
      some (Value.vnum 1) ∧
    ("a" : String) ≠ "" :=
  ⟨rfl, rfl, by decide⟩

/-- C5 amended: for every explicitly provided non-empty key `k`,
`clearContext k` removes at most the entry for `k` (entries under other
keys are unchanged, and the call is a no-op when `k` is absent); invoking
`clearContext` with the key omitted or equal to the empty string clears
the entire context scope. -/
theorem clearContext_frame_amended (m : MemorySystem) (k : String) :
    (k ≠ "" →
      (∀ k2, k2 ≠ k → (m.clearContext (some k)).context k2 = m.context k2) ∧
      (m.clearContext (some k)).context k = none ∧
      (m.context k = none → m.clearContext (some k) = m)) ∧
    (m.clearContext none).context = (fun _ => none) ∧
    (m.clearContext (some "")).context = (fun _ => none) := by
  refine ⟨?_, rfl, rfl⟩
  intro hk
  refine ⟨?_, ?_, ?_⟩
  · intro k2 hk2
    simp [MemorySystem.clearContext, hk, mapDelete, hk2]
  · simp [MemorySystem.clearContext, hk, mapDelete]
  · intro habs
    have hctx : mapDelete m.context k = m.context := by
      funext k2
      by_cases h : k2 = k
      · subst h; simp [mapDelete, habs]
      · simp [mapDelete, h]
    simp only [MemorySystem.clearContext, if_pos hk, hctx]

/-- Witness for C5 (amended): clearing key `"a"` leaves the entry for
`"b"` untouched. -/
theorem clearContext_frame_amended_witness :
    ("a" : String) ≠ "" ∧
    ((MemorySystem.init.setContext "b" (Value.vnum 2)).clearContext
        (some "a")).context "b" =
      (MemorySystem.init.setContext "b" (Value.vnum 2)).context "b" :=
  ⟨by decide,
   ((clearContext_frame_amended (MemorySystem.init.setContext "b" (Value.vnum 2))
      "a").1 (by decide)).1 "b" (by decide)⟩

/-- C6 counterexample: the claim says `retrieve` after `store` returns the
stored value, but storing the falsy value `false` reads back as `null`
because the source returns `this.storage.get(key) || null`. -/
theorem retrieve_after_store_falsy_is_null :
    (MemorySystem.init.store "k" (Value.vbool false)).retrieve "k" = Value.vnull ∧
    Value.vnull ≠ Value.vbool false :=
  ⟨rfl, fun h => Value.noConfusion h⟩

/-- C6 amended: `retrieve` after `store` returns the stored value when
that value is truthy, while a falsy stored value reads back as `null`; a
key never stored reads as `null` rather than raising, and storing under a
different key leaves the read unchanged. -/
theorem store_retrieve_amended (m : MemorySystem) (k : String) (v : Value) :
    (truthy v = true → (m.store k v).retrieve k = v) ∧
    (truthy v = false → (m.store k v).retrieve k = Value.vnull) ∧
    MemorySystem.init.retrieve k = Value.vnull ∧
    (∀ k2 w, k2 ≠ k → (m.store k2 w).retrieve k = m.retrieve k) := by
  refine ⟨?_, ?_, rfl, ?_⟩
  · intro hv
    simp [MemorySystem.store, MemorySystem.retrieve, mapSet, jsOr, hv]
  · intro hv
    simp [MemorySystem.store, MemorySystem.retrieve, mapSet, jsOr, hv]
  · intro k2 w hk2
    have h2 : ¬(k = k2) := fun hh => hk2 hh.symm
    simp [MemorySystem.store, MemorySystem.retrieve, mapSet, h2]

/-- Witness for C6 (amended): a truthy roundtrip, a falsy readback, and a
frame read. -/
theorem store_retrieve_amended_witness :
    truthy (Value.vstr "x") = true ∧
    (MemorySystem.init.store "k" (Value.vstr "x")).retrieve "k" = Value.vstr "x" ∧
    (MemorySystem.init.store "k" (Value.vnum 0)).retrieve "k" = Value.vnull ∧
    (MemorySystem.init.store "j" (Value.vstr "y")).retrieve "k" =
      MemorySystem.init.retrieve "k" :=
  ⟨rfl,
   (store_retrieve_amended MemorySystem.init "k" (Value.vstr "x")).1 rfl,
   (store_retrieve_amended MemorySystem.init "k" (Value.vnum 0)).2.1 rfl,
   (store_retrieve_amended MemorySystem.init "k" (Value.vstr "y")).2.2.2 "j"
     (Value.vstr "y") (by decide)⟩

/-- C7: on the freshly constructed store both getters return the empty
sequence, and after any sequence of learning calls starting from the
fresh store, `getSuccessPatterns`/`getFailurePatterns` return exactly the
records those calls stored for the requested type, in call order; being
total functions into lists they never fail and never return null. -/
theorem patterns_full_sequence (ops : List LearnOp) (t : String) :
    MemorySystem.init.getSuccessPatterns t = [] ∧
    MemorySystem.init.getFailurePatterns t = [] ∧
    (replay MemorySystem.init ops).getSuccessPatterns t = opsSucc ops t ∧
    (replay MemorySystem.init ops).getFailurePatterns t = opsFail ops t := by
  refine ⟨rfl, rfl, ?_, ?_⟩
  · rw [replay_getSuccessPatterns]; rfl
  · rw [replay_getFailurePatterns]; rfl

/-- C8: every `Recommendation` that `getRecommendations` returns has a
confidence in the closed interval from 0 to 1. -/
theorem recommendation_confidence_in_unit_interval (m : MemorySystem) (t : String)
    (c : Value) (l : List Recommendation)
    (h : m.getRecommendations t c = .ok l) :
    ∀ r ∈ l, 0 ≤ r.confidence ∧ r.confidence ≤ 1 :=
  recommendFor_confidence h

/-- Witness for C8 on a store whose single pattern has similarity 1 to the
candidate. -/
theorem recommendation_confidence_in_unit_interval_witness :
    0 ≤ (recOf "web" 1 "T").confidence ∧ (recOf "web" 1 "T").confidence ≤ 1 := by
  have hsim : calculateSimilarity (Value.vobj []) (Value.vobj []) = Except.ok 1 := rfl
  have h : (MemorySystem.init.learnSuccess "web" (Value.vobj [])
      "T").getRecommendations "web" (Value.vobj []) = .ok [recOf "web" 1 "T"] := by
    show recommendFor "web" (Value.vobj [])
        [{ type := "web", config := Value.vobj [], timestamp := "T" }] = _
    simp only [recommendFor, hsim, exceptBind_ok, exceptPure]
    rw [if_pos (by norm_num : (1 : Rat) / 2 ≤ 1)]
    rfl
  exact recommendation_confidence_in_unit_interval _ _ _ _ h (recOf "web" 1 "T")
    (List.mem_singleton.mpr rfl)

/-- C9: the similarity measure is symmetric in its two configuration
arguments (also in the throwing cases, which produce the same
`TypeError`). -/
theorem calculateSimilarity_comm (a b : Value) :
    calculateSimilarity a b = calculateSimilarity b a := by
  cases ha : jsObjectKeys a with
  | error e =>
      have h1 : calculateSimilarity a b = .error e := by
        unfold calculateSimilarity; rw [ha, exceptBind_error]
      cases hb : jsObjectKeys b with
      | error e2 =>
          have h2 : calculateSimilarity b a = .error e2 := by
            unfold calculateSimilarity; rw [hb, exceptBind_error]
          rw [h1, h2, jsObjectKeys_error ha, jsObjectKeys_error hb]
      | ok kb =>
          have h2 : calculateSimilarity b a = .error e := by
            unfold calculateSimilarity; rw [hb, exceptBind_ok, ha, exceptBind_error]
          rw [h1, h2]
  | ok ka =>
      cases hb : jsObjectKeys b with
      | error e =>
          have h1 : calculateSimilarity a b = .error e := by
            unfold calculateSimilarity; rw [ha, exceptBind_ok, hb, exceptBind_error]
          have h2 : calculateSimilarity b a = .error e := by
            unfold calculateSimilarity; rw [hb, exceptBind_error]
          rw [h1, h2]
      | ok kb =>
          rw [calculateSimilarity_ok ha hb, calculateSimilarity_ok hb ha,
            similaritySpec_comm]

/-- C10: `learnSuccess` leaves the failure map, the generic storage and
the context untouched and changes no success sequence of another type;
symmetrically, `learnFailure` leaves the success map, the storage and the
context untouched and changes no failure sequence of another type. -/
theorem learn_frame (m : MemorySystem) (t t2 : String) (c : Value) (e now : String) :
    (m.learnSuccess t c now).failurePatterns = m.failurePatterns ∧
    (m.learnSuccess t c now).storage = m.storage ∧
    (m.learnSuccess t c now).context = m.context ∧
    (t2 ≠ t → (m.learnSuccess t c now).successPatterns t2 = m.successPatterns t2) ∧
    (m.learnFailure t c e now).successPatterns = m.successPatterns ∧
    (m.learnFailure t c e now).storage = m.storage ∧
    (m.learnFailure t c e now).context = m.context ∧
    (t2 ≠ t → (m.learnFailure t c e now).failurePatterns t2 = m.failurePatterns t2) := by
  refine ⟨rfl, rfl, rfl, ?_, rfl, rfl, rfl, ?_⟩
  · intro h
    simp [MemorySystem.learnSuccess, mapSet, h]
  · intro h
    simp [MemorySystem.learnFailure, mapSet, h]

/-- Witness for C10 at two distinct concrete types. -/
theorem learn_frame_witness :
    ("b" : String) ≠ "a" ∧
    (MemorySystem.init.learnSuccess "a" Value.vnull "T").successPatterns "b" =
      MemorySystem.init.successPatterns "b" ∧
    (MemorySystem.init.learnFailure "a" Value.vnull "err" "T").failurePatterns "b" =
      MemorySystem.init.failurePatterns "b" := by
  have h := learn_frame MemorySystem.init "a" "b" Value.vnull "err" "T"
  exact ⟨by decide, h.2.2.2.1 (by decide), h.2.2.2.2.2.2.2 (by decide)⟩
